import Mathlib

/-!
Shallow embedding of the `bp-esplora-client` request-execution and
response-decoding pipeline (`src/lib.rs` and `src/async.rs`).

Modelling conventions:
* HTTP status codes and bytes are `Nat`; response bodies are `List Nat`
  (byte sequences).  `reqwest`'s `text()` view of a body is modelled as the
  body bytes themselves (all claims are insensitive to UTF-8 decoding).
* The network transport is a pure function: for GET requests a function
  from the request URL and the 0-based attempt index to the outcome of that
  send (`Except Nat Response`, where the `Nat` stands for an opaque
  `reqwest::Error`); for POST requests a function from URL and request body
  to one outcome.  This makes the retry loop's interaction with the
  transport explicit and lets theorems quantify over arbitrary transports.
* `tokio::time::sleep` suspensions are recorded in a trace (`sleeps`)
  rather than executed; `attempts_made` counts the total number of sends.
* Generic deserializers (`ConsensusDecode`, `serde`) are parameters:
  a consensus decoder is `List Nat → Option T` (the code discards the
  concrete decode error), a JSON decoder is `List Nat → Except Nat T`
  (the code keeps the `reqwest` error).
* Durations are in milliseconds (`BASE_BACKOFF_MILLIS = 256`).
-/

/-- HTTP response as seen by the client: status code and body bytes
(`src/async.rs` works with `reqwest::Response`; headers are unused). -/
structure Response where
  status : Nat
  body : List Nat
deriving Repr, DecidableEq

/-- `reqwest::StatusCode::is_success`: `200 <= status < 300`. -/
def Response.is_success (r : Response) : Bool :=
  decide (200 ≤ r.status ∧ r.status < 300)

/-- `amplify::hex::Error`, as produced by `Vec::from_hex` (`src/async.rs`
line 201 propagates it via `?` into `Error::Hex`). -/
inductive HexError where
  | oddLengthString (len : Nat)
  | invalidChar (b : Nat)
deriving Repr, DecidableEq

/-- The error taxonomy of `src/lib.rs` (`enum Error`), with the
blocking-only `Minreq` variant omitted and external error payloads
modelled opaquely: `reqwest::Error` as a `Nat` tag, `Txid` as a `Nat`
identifier, `ParseIntError`/`TryFromIntError` payloads dropped. -/
inductive Error where
  | Reqwest (e : Nat)
  | HttpResponse (status : Nat) (message : List Nat)
  | InvalidServerData
  | Parsing
  | StatusCode
  | BitcoinEncoding
  | Hex (e : HexError)
  | TransactionNotFound (txid : Nat)
  | InvalidHttpHeaderName (name : String)
  | InvalidHttpHeaderValue (value : String)
deriving Repr, DecidableEq

/-- `RETRYABLE_ERROR_CODES` from `src/lib.rs`: 429, 500, 503. -/
def RETRYABLE_ERROR_CODES : List Nat := [429, 500, 503]

/-- `BASE_BACKOFF_MILLIS` from `src/lib.rs`: 256 milliseconds. -/
def BASE_BACKOFF_MILLIS : Nat := 256

/-- `DEFAULT_MAX_RETRIES` from `src/lib.rs`. -/
def DEFAULT_MAX_RETRIES : Nat := 6

/-- `is_status_retryable` from `src/async.rs`. -/
def is_status_retryable (status : Nat) : Bool :=
  RETRYABLE_ERROR_CODES.contains status

/-- Decidable equality for `Except` results, needed to evaluate concrete
runs of the pipeline. -/
instance {ε α} [DecidableEq ε] [DecidableEq α] : DecidableEq (Except ε α) :=
  fun x y =>
  match x, y with
  | .error a, .error b =>
    if h : a = b then .isTrue (congrArg Except.error h)
    else .isFalse (fun hc => h (Except.error.inj hc))
  | .ok a, .ok b =>
    if h : a = b then .isTrue (congrArg Except.ok h)
    else .isFalse (fun hc => h (Except.ok.inj hc))
  | .error _, .ok _ => .isFalse (fun hc => Except.noConfusion hc)
  | .ok _, .error _ => .isFalse (fun hc => Except.noConfusion hc)

/-- Trace of one `get_with_retry` call: the returned value, the total
number of send attempts performed, and the sequence of backoff delays
slept (in order, milliseconds). -/
structure RetryResult where
  result : Except Error Response
  attempts_made : Nat
  sleeps : List Nat
deriving Repr, DecidableEq

/-- The loop body of `get_with_retry` (`src/async.rs` lines 488-502).

The Rust loop keeps `attempts` (number of retries performed so far,
starting at 0) and `delay` (starting at `BASE_BACKOFF_MILLIS`); each
iteration sends the request (send number = current `attempts`), and
retries (sleep `delay`, `attempts += 1`, `delay *= 2`) exactly when
`attempts < max_retries` and the status is retryable.  Here `fuel`
stands for `max_retries - attempts`, so `fuel > 0` is exactly the Rust
guard `attempts < self.max_retries`; this makes the recursion
structural.  A transport error on any send is propagated immediately by
the `?` operator (as `Error::Reqwest`). -/
def retryLoop (send : Nat → Except Nat Response) :
    Nat → Nat → Nat → RetryResult
  | 0, attempts, _ =>
    match send attempts with
    | .error e => ⟨.error (.Reqwest e), attempts + 1, []⟩
    | .ok resp => ⟨.ok resp, attempts + 1, []⟩
  | fuel + 1, attempts, delay =>
    match send attempts with
    | .error e => ⟨.error (.Reqwest e), attempts + 1, []⟩
    | .ok resp =>
      if is_status_retryable resp.status then
        let rest := retryLoop send fuel (attempts + 1) (delay * 2)
        ⟨rest.result, rest.attempts_made, delay :: rest.sleeps⟩
      else ⟨.ok resp, attempts + 1, []⟩

/-- `AsyncClient` state (`src/async.rs`): base URL and configured maximum
retry count.  The inner `reqwest::Client` is the transport, passed to each
operation as a function, and the sleeper marker is erased (sleeps are
traced). -/
structure AsyncClient where
  url : String
  max_retries : Nat
deriving Repr, DecidableEq

/-- `get_with_retry` (`src/async.rs` lines 488-502): `attempts := 0`,
`delay := BASE_BACKOFF_MILLIS`, then loop. -/
def AsyncClient.get_with_retry (c : AsyncClient)
    (send : String → Nat → Except Nat Response) (url : String) : RetryResult :=
  retryLoop (send url) c.max_retries 0 BASE_BACKOFF_MILLIS

/-- Value of an ASCII hex digit (`0-9`, `a-f`, `A-F`). -/
def hex_digit_val (b : Nat) : Option Nat :=
  if 48 ≤ b ∧ b ≤ 57 then some (b - 48)
  else if 97 ≤ b ∧ b ≤ 102 then some (b - 87)
  else if 65 ≤ b ∧ b ≤ 70 then some (b - 55)
  else none

/-- Decode an even-length sequence of ASCII hex digits into bytes,
pairwise. -/
def from_hex_pairs : List Nat → Except HexError (List Nat)
  | [] => .ok []
  | [b] => .error (.invalidChar b)
  | h :: l :: rest =>
    match hex_digit_val h, hex_digit_val l, from_hex_pairs rest with
    | some hv, some lv, .ok bs => .ok ((16 * hv + lv) :: bs)
    | none, _, _ => .error (.invalidChar h)
    | some _, none, _ => .error (.invalidChar l)
    | some _, some _, .error e => .error e

/-- `amplify::hex`'s `Vec::<u8>::from_hex` on the bytes of the body text:
odd length is rejected, then digit pairs are decoded. -/
def from_hex (s : List Nat) : Except HexError (List Nat) :=
  if s.length % 2 ≠ 0 then .error (.oddLengthString s.length)
  else from_hex_pairs s

/-- Single hex digit of a nibble, lowercase (as `ToHex` produces). -/
def to_hex_digit (n : Nat) : Nat :=
  if n < 10 then 48 + n else 87 + n

/-- `amplify::hex::ToHex` on a byte sequence: two lowercase hex digits
per byte. -/
def to_hex : List Nat → List Nat
  | [] => []
  | b :: rest => to_hex_digit (b / 16) :: to_hex_digit (b % 16) :: to_hex rest

/-- `get_response` (`src/async.rs` lines 107-119): dispatch through
`get_with_retry`; non-2xx terminal statuses become
`Error::HttpResponse`; the 2xx body is consensus-deserialized, any
decode failure collapsing to `Error::InvalidServerData`. -/
def AsyncClient.get_response (c : AsyncClient) (dec : List Nat → Option T)
    (send : String → Nat → Except Nat Response) (path : String) :
    Except Error T :=
  let url := c.url ++ path
  match (c.get_with_retry send url).result with
  | .error e => .error e
  | .ok response =>
    if response.is_success then
      match dec response.body with
      | some v => .ok v
      | none => .error .InvalidServerData
    else .error (.HttpResponse response.status response.body)

/-- `get_opt_response` (`src/async.rs` lines 126-132): an
`Error::HttpResponse` with status exactly 404 becomes `Ok(None)`;
everything else passes through. -/
def AsyncClient.get_opt_response (c : AsyncClient) (dec : List Nat → Option T)
    (send : String → Nat → Except Nat Response) (path : String) :
    Except Error (Option T) :=
  match c.get_response dec send path with
  | .ok res => .ok (some res)
  | .error (.HttpResponse 404 _) => .ok none
  | .error e => .error e

/-- `get_response_json` (`src/async.rs` lines 144-159): like
`get_response` but the 2xx body is JSON-decoded, a decode failure
keeping the underlying `reqwest` error (`Error::Reqwest`). -/
def AsyncClient.get_response_json (c : AsyncClient)
    (jdec : List Nat → Except Nat T)
    (send : String → Nat → Except Nat Response) (path : String) :
    Except Error T :=
  let url := c.url ++ path
  match (c.get_with_retry send url).result with
  | .error e => .error e
  | .ok response =>
    if response.is_success then
      match jdec response.body with
      | .ok v => .ok v
      | .error e => .error (.Reqwest e)
    else .error (.HttpResponse response.status response.body)

/-- `get_opt_response_json` (`src/async.rs` lines 167-176). -/
def AsyncClient.get_opt_response_json (c : AsyncClient)
    (jdec : List Nat → Except Nat T)
    (send : String → Nat → Except Nat Response) (path : String) :
    Except Error (Option T) :=
  match c.get_response_json jdec send path with
  | .ok res => .ok (some res)
  | .error (.HttpResponse 404 _) => .ok none
  | .error e => .error e

/-- `get_response_hex` (`src/async.rs` lines 189-202): the 2xx body text
is hex-decoded (`?` propagates a hex failure as `Error::Hex`), then
consensus-deserialized, a decode failure collapsing to
`Error::BitcoinEncoding`. -/
def AsyncClient.get_response_hex (c : AsyncClient) (dec : List Nat → Option T)
    (send : String → Nat → Except Nat Response) (path : String) :
    Except Error T :=
  let url := c.url ++ path
  match (c.get_with_retry send url).result with
  | .error e => .error e
  | .ok response =>
    if response.is_success then
      match from_hex response.body with
      | .error e => .error (.Hex e)
      | .ok bytes =>
        match dec bytes with
        | some v => .ok v
        | none => .error .BitcoinEncoding
    else .error (.HttpResponse response.status response.body)

/-- `get_opt_response_hex`: present in the source only as a commented-out
block (`src/async.rs` lines 204-218); modelled from that block, which is
the same 404-interception wrapper as the other optional variants. -/
def AsyncClient.get_opt_response_hex (c : AsyncClient)
    (dec : List Nat → Option T)
    (send : String → Nat → Except Nat Response) (path : String) :
    Except Error (Option T) :=
  match c.get_response_hex dec send path with
  | .ok res => .ok (some res)
  | .error (.HttpResponse 404 _) => .ok none
  | .error e => .error e

/-- `get_response_text` (`src/async.rs` lines 228-240): the 2xx body is
returned as text (modelled as the body bytes). -/
def AsyncClient.get_response_text (c : AsyncClient)
    (send : String → Nat → Except Nat Response) (path : String) :
    Except Error (List Nat) :=
  let url := c.url ++ path
  match (c.get_with_retry send url).result with
  | .error e => .error e
  | .ok response =>
    if response.is_success then .ok response.body
    else .error (.HttpResponse response.status response.body)

/-- `get_opt_response_text` (`src/async.rs` lines 247-253). -/
def AsyncClient.get_opt_response_text (c : AsyncClient)
    (send : String → Nat → Except Nat Response) (path : String) :
    Except Error (Option (List Nat)) :=
  match c.get_response_text send path with
  | .ok s => .ok (some s)
  | .error (.HttpResponse 404 _) => .ok none
  | .error e => .error e

/-- Trace of one POST call: returned value and total send attempts. -/
structure PostResult where
  result : Except Error Unit
  attempts_made : Nat
deriving Repr, DecidableEq

/-- `post_request_hex` (`src/async.rs` lines 265-279): hex-encode the
consensus serialization of the body and POST it with a single direct
`self.client.post(url).send()` — note: no `get_with_retry`, exactly one
send attempt.  `ser` is the `ConsensusEncode` serializer of `T`. -/
def AsyncClient.post_request_hex (c : AsyncClient) (ser : T → List Nat)
    (send : String → List Nat → Except Nat Response) (path : String)
    (body : T) : PostResult :=
  let url := c.url ++ path
  let hexBody := to_hex (ser body)
  match send url hexBody with
  | .error e => ⟨.error (.Reqwest e), 1⟩
  | .ok response =>
    if response.is_success then ⟨.ok (), 1⟩
    else ⟨.error (.HttpResponse response.status response.body), 1⟩

/-- `broadcast` (`src/async.rs` lines 365-367): POST the transaction to
`/tx` via `post_request_hex`. -/
def AsyncClient.broadcast (c : AsyncClient) (ser : T → List Nat)
    (send : String → List Nat → Except Nat Response) (tx : T) : PostResult :=
  c.post_request_hex ser send "/tx" tx

/-- `tx` (`src/async.rs` lines 282-284): optional binary fetch of
`/tx/{txid}/raw`.  `Txid` is modelled as a `Nat` identifier. -/
def AsyncClient.tx (c : AsyncClient) (dec : List Nat → Option T)
    (send : String → Nat → Except Nat Response) (txid : Nat) :
    Except Error (Option T) :=
  c.get_opt_response dec send ("/tx/" ++ toString txid ++ "/raw")

/-- `tx_no_opt` (`src/async.rs` lines 287-293): an empty optional result
becomes `Error::TransactionNotFound(txid)`. -/
def AsyncClient.tx_no_opt (c : AsyncClient) (dec : List Nat → Option T)
    (send : String → Nat → Except Nat Response) (txid : Nat) :
    Except Error T :=
  match c.tx dec send txid with
  | .ok (some t) => .ok t
  | .ok none => .error (.TransactionNotFound txid)
  | .error e => .error e

/-- `blocks` (`src/async.rs` lines 464-474): fetch `/blocks` (or
`/blocks/{height}`) as JSON; an empty array becomes
`Error::InvalidServerData`.  `B` stands for `BlockSummary`. -/
def AsyncClient.blocks (c : AsyncClient)
    (jdec : List Nat → Except Nat (List B))
    (send : String → Nat → Except Nat Response) (height : Option Nat) :
    Except Error (List B) :=
  let path := match height with
    | some h => "/blocks/" ++ toString h
    | none => "/blocks"
  match c.get_response_json jdec send path with
  | .error e => .error e
  | .ok bs => if bs.isEmpty then .error .InvalidServerData else .ok bs

/-- Rust's `Iterator::max_by_key` on key-value pairs, keyed by the first
component, as a left fold; on ties the later element wins, matching the
documented "last element is returned". -/
def max_by_key_fold (acc : Option (Nat × ℚ)) :
    List (Nat × ℚ) → Option (Nat × ℚ)
  | [] => acc
  | kv :: rest =>
    max_by_key_fold
      (match acc with
       | none => some kv
       | some best => if best.1 ≤ kv.1 then some kv else some best)
      rest

/-- `convert_fee_rate` (`src/lib.rs` lines 115-121): keep the estimates
whose confirmation-target key is at most `target`, take the entry with
the largest key, return its fee-rate.  The `HashMap<u16, f64>` is
modelled as an association list with exact rational fee-rates (the final
`f64 → f32` narrowing is a representation cast outside the selection
logic). -/
def convert_fee_rate (target : Nat) (estimates : List (Nat × ℚ)) : Option ℚ :=
  (max_by_key_fold none (estimates.filter (fun kv => kv.1 ≤ target))).map
    (fun kv => kv.2)

/-- Rust's `str::to_lowercase`, which on ASCII strings maps `A-Z` to
`a-z` characterwise (header names outside ASCII are invalid both before
and after lowercasing). -/
def to_lowercase (s : String) : String :=
  String.mk (s.toList.map Char.toLower)

/-- Valid byte of a lowercase HTTP header name, as accepted by
`http::HeaderName::from_lowercase`: digits, lowercase letters, and
the token characters. -/
def is_valid_lowercase_header_byte (b : Nat) : Bool :=
  (decide (48 ≤ b) && decide (b ≤ 57)) ||
  (decide (97 ≤ b) && decide (b ≤ 122)) ||
  [33, 35, 36, 37, 38, 39, 42, 43, 45, 46, 94, 95, 96, 124, 126].contains b

/-- `http::HeaderName::from_lowercase` validity: nonempty and every byte
valid. -/
def is_valid_lowercase_header_name (s : String) : Bool :=
  !s.isEmpty && s.toList.all (fun c => is_valid_lowercase_header_byte c.toNat)

/-- `http::HeaderValue::from_str` validity: every byte is horizontal tab
or in `32..=255` excluding DEL (multi-byte UTF-8 characters only
contribute bytes `≥ 128`, hence are valid). -/
def is_valid_header_value (s : String) : Bool :=
  s.toList.all (fun c => (c.toNat == 9) || (decide (32 ≤ c.toNat) && c.toNat != 127))

/-- `Builder` (`src/lib.rs` lines 156-178).  `proxy` and `timeout`
configure only the external transport and are unused by the modelled
logic. -/
structure Builder where
  base_url : String
  proxy : Option String
  timeout : Option Nat
  headers : List (String × String)
  max_retries : Nat

/-- The header loop of `AsyncClient::from_builder` (`src/async.rs` lines
61-71): each name is lowercased and validated as a header name (failure:
`InvalidHttpHeaderName` carrying the original name), then the value is
validated (failure: `InvalidHttpHeaderValue` carrying the value). -/
def validate_headers : List (String × String) → Except Error Unit
  | [] => .ok ()
  | (k, v) :: rest =>
    if is_valid_lowercase_header_name (to_lowercase k) then
      if is_valid_header_value v then validate_headers rest
      else .error (.InvalidHttpHeaderValue v)
    else .error (.InvalidHttpHeaderName k)

/-- `AsyncClient::from_builder` (`src/async.rs` lines 48-79): validate
the configured headers, then build the client carrying the base URL and
`max_retries`. -/
def AsyncClient.from_builder (b : Builder) : Except Error AsyncClient :=
  match validate_headers b.headers with
  | .error e => .error e
  | .ok _ => .ok ⟨b.base_url, b.max_retries⟩

/-! ## Helper lemmas about the retry loop -/

theorem delay_cons_range (d n : Nat) :
    d :: (List.range n).map (fun i => d * 2 * 2 ^ i) =
      (List.range (n + 1)).map (fun i => d * 2 ^ i) := by
  rw [List.range_succ_eq_map, List.map_cons, List.map_map]
  refine congrArg₂ List.cons (by simp) (List.map_congr_left fun i _ => ?_)
  simp only [Function.comp_apply, pow_succ]
  ring

theorem retryLoop_const_retryable (send : Nat → Except Nat Response)
    (resp : Response) (hsend : ∀ i, send i = .ok resp)
    (hr : is_status_retryable resp.status = true) :
    ∀ fuel attempts delay, retryLoop send fuel attempts delay =
      ⟨.ok resp, attempts + fuel + 1,
        (List.range fuel).map (fun i => delay * 2 ^ i)⟩ := by
  intro fuel
  induction fuel with
  | zero => intro attempts delay; simp [retryLoop, hsend attempts]
  | succ n ih =>
    intro attempts delay
    simp only [retryLoop, hsend attempts, hr, if_true]
    rw [ih (attempts + 1) (delay * 2)]
    simp only [RetryResult.mk.injEq]
    exact ⟨trivial, by omega, delay_cons_range delay n⟩

theorem retryLoop_sleeps_length_le (send : Nat → Except Nat Response) :
    ∀ fuel attempts delay,
      (retryLoop send fuel attempts delay).sleeps.length ≤ fuel := by
  intro fuel
  induction fuel with
  | zero => intro attempts delay; cases h : send attempts <;> simp [retryLoop, h]
  | succ n ih =>
    intro attempts delay
    cases h : send attempts with
    | error e => simp [retryLoop, h]
    | ok resp =>
      by_cases hr : is_status_retryable resp.status
      · simp only [retryLoop, h, hr, if_true]
        simpa using ih (attempts + 1) (delay * 2)
      · simp [retryLoop, h, hr]

theorem chain_le_doubling (d n : Nat) :
    ((List.range n).map (fun i => d * 2 ^ i)).Chain' (fun a b => a ≤ b) := by
  apply List.Pairwise.chain'
  rw [List.pairwise_map]
  exact (List.pairwise_lt_range n).imp fun h =>
    Nat.mul_le_mul_left d (Nat.pow_le_pow_right (by norm_num) (le_of_lt h))

theorem retryLoop_transport_error (send : Nat → Except Nat Response) :
    ∀ (k e fuel attempts delay : Nat),
      send (attempts + k) = .error e →
      (∀ j, j < k → ∃ r, send (attempts + j) = .ok r ∧
        is_status_retryable r.status = true) →
      k ≤ fuel →
      retryLoop send fuel attempts delay =
        ⟨.error (.Reqwest e), attempts + k + 1,
          (List.range k).map (fun i => delay * 2 ^ i)⟩ := by
  intro k
  induction k with
  | zero =>
    intro e fuel attempts delay h1 _ _
    have h1' : send attempts = .error e := by simpa using h1
    cases fuel <;> simp [retryLoop, h1']
  | succ n ih =>
    intro e fuel attempts delay h1 h2 h3
    obtain ⟨fuel', rfl⟩ : ∃ f, fuel = f + 1 := ⟨fuel - 1, by omega⟩
    obtain ⟨r, hr1, hr2⟩ := h2 0 (Nat.succ_pos n)
    rw [Nat.add_zero] at hr1
    simp only [retryLoop, hr1, hr2, if_true]
    rw [ih e fuel' (attempts + 1) (delay * 2)
      (by have : attempts + 1 + n = attempts + (n + 1) := by omega
          rw [this]; exact h1)
      (fun j hj => by
        have : attempts + 1 + j = attempts + (j + 1) := by omega
        rw [this]; exact h2 (j + 1) (by omega))
      (by omega)]
    simp only [RetryResult.mk.injEq]
    exact ⟨trivial, by omega, delay_cons_range delay n⟩

/-! ## Claim theorems -/

/-- C1: with max_retries = N and a transport that always answers a fixed
retryable status (429/500/503), `get_with_retry` performs exactly N
retries (N+1 total send attempts) before returning that terminal
response; the backoff delays slept form the sequence `base, 2*base,
4*base, ...` with base = 256 ms; the delays are monotonically
non-decreasing; with N = 0 no sleep happens; and for any transport the
number of retries never exceeds N. -/
theorem retry_dispatcher_retryable_spec (c : AsyncClient)
    (send : String → Nat → Except Nat Response) (url : String)
    (resp : Response) (hsend : ∀ i, send url i = .ok resp)
    (hr : is_status_retryable resp.status = true) :
    c.get_with_retry send url =
      ⟨.ok resp, c.max_retries + 1,
        (List.range c.max_retries).map (fun i => BASE_BACKOFF_MILLIS * 2 ^ i)⟩
    ∧ (c.get_with_retry send url).sleeps.length = c.max_retries
    ∧ (c.get_with_retry send url).sleeps.Chain' (fun a b => a ≤ b)
    ∧ (c.max_retries = 0 → (c.get_with_retry send url).sleeps = [])
    ∧ ∀ send' : String → Nat → Except Nat Response,
        (c.get_with_retry send' url).sleeps.length ≤ c.max_retries := by
  have hmain : c.get_with_retry send url =
      ⟨.ok resp, c.max_retries + 1,
        (List.range c.max_retries).map (fun i => BASE_BACKOFF_MILLIS * 2 ^ i)⟩ := by
    unfold AsyncClient.get_with_retry
    rw [retryLoop_const_retryable (send url) resp hsend hr c.max_retries 0
      BASE_BACKOFF_MILLIS]
    simp
  refine ⟨hmain, by rw [hmain]; simp, ?_, ?_, ?_⟩
  · rw [hmain]; exact chain_le_doubling BASE_BACKOFF_MILLIS c.max_retries
  · intro h0; rw [hmain, h0]; simp
  · intro send'
    exact retryLoop_sleeps_length_le (send' url) c.max_retries 0 BASE_BACKOFF_MILLIS

theorem retry_dispatcher_retryable_spec_witness :
    (∀ i : Nat, (fun (_ : String) (_ : Nat) =>
        (Except.ok ⟨503, []⟩ : Except Nat Response)) "u" i = .ok ⟨503, []⟩)
    ∧ is_status_retryable 503 = true
    ∧ AsyncClient.get_with_retry ⟨"u", 2⟩ (fun _ _ => .ok ⟨503, []⟩) "u" =
        ⟨.ok ⟨503, []⟩, 3, [256, 512]⟩ := by
  refine ⟨fun _ => rfl, by decide, ?_⟩
  have h := retry_dispatcher_retryable_spec ⟨"u", 2⟩ (fun _ _ => .ok ⟨503, []⟩)
    "u" ⟨503, []⟩ (fun _ => rfl) (by decide)
  rw [h.1]
  decide

/-- C6: a transport-level failure on any attempt (here: attempt `k`,
reached after `k` retryable responses) surfaces immediately as a
transport error (`Error::Reqwest`) from `get_with_retry`; it is never
retried — the call ends with exactly `k + 1` sends and `k` sleeps,
regardless of how many retries remain. -/
theorem transport_failure_immediate (c : AsyncClient)
    (send : String → Nat → Except Nat Response) (url : String) (k e : Nat)
    (h1 : send url k = .error e)
    (h2 : ∀ j, j < k → ∃ r, send url j = .ok r ∧
      is_status_retryable r.status = true)
    (h3 : k ≤ c.max_retries) :
    (c.get_with_retry send url).result = .error (.Reqwest e)
    ∧ (c.get_with_retry send url).attempts_made = k + 1
    ∧ (c.get_with_retry send url).sleeps.length = k := by
  have h := retryLoop_transport_error (send url) k e c.max_retries 0
    BASE_BACKOFF_MILLIS (by simpa using h1) (by simpa using h2) h3
  unfold AsyncClient.get_with_retry
  rw [h]
  simp

theorem transport_failure_immediate_witness :
    ((fun (_ : String) (i : Nat) =>
        if i = 0 then (Except.ok ⟨500, []⟩ : Except Nat Response)
        else .error 7) "u" 1 = .error 7)
    ∧ ((AsyncClient.get_with_retry ⟨"u", 3⟩
        (fun _ i => if i = 0 then .ok ⟨500, []⟩ else .error 7) "u").result =
          .error (.Reqwest 7)
      ∧ (AsyncClient.get_with_retry ⟨"u", 3⟩
        (fun _ i => if i = 0 then .ok ⟨500, []⟩ else .error 7) "u").attempts_made = 2
      ∧ (AsyncClient.get_with_retry ⟨"u", 3⟩
        (fun _ i => if i = 0 then .ok ⟨500, []⟩ else .error 7) "u").sleeps.length = 1) := by
  refine ⟨rfl, ?_⟩
  exact transport_failure_immediate ⟨"u", 3⟩
    (fun _ i => if i = 0 then .ok ⟨500, []⟩ else .error 7) "u" 1 7 rfl
    (fun j hj => by
      have : j = 0 := by omega
      subst this
      exact ⟨⟨500, []⟩, rfl, by decide⟩)
    (by decide)

/-- C7: for a terminal status outside the retryable set {429, 500, 503}
(e.g. 400, 404, 200) on the first attempt, `get_with_retry` returns the
response after exactly one send with no backoff sleep, whatever the
configured max_retries. -/
theorem non_retryable_first_attempt (c : AsyncClient)
    (send : String → Nat → Except Nat Response) (url : String)
    (resp : Response) (h1 : send url 0 = .ok resp)
    (h2 : is_status_retryable resp.status = false) :
    c.get_with_retry send url = ⟨.ok resp, 1, []⟩ := by
  unfold AsyncClient.get_with_retry
  cases hm : c.max_retries with
  | zero => simp [retryLoop, h1]
  | succ n => simp [retryLoop, h1, h2]

theorem non_retryable_first_attempt_witness :
    ((fun (_ : String) (_ : Nat) =>
        (Except.ok ⟨400, []⟩ : Except Nat Response)) "u" 0 = .ok ⟨400, []⟩)
    ∧ is_status_retryable 400 = false
    ∧ AsyncClient.get_with_retry ⟨"u", 6⟩ (fun _ _ => .ok ⟨400, []⟩) "u" =
        ⟨.ok ⟨400, []⟩, 1, []⟩ :=
  ⟨rfl, by decide,
    non_retryable_first_attempt ⟨"u", 6⟩ (fun _ _ => .ok ⟨400, []⟩) "u"
      ⟨400, []⟩ rfl (by decide)⟩

theorem max_by_key_fold_some_ne_none (l : List (Nat × ℚ)) :
    ∀ b, max_by_key_fold (some b) l ≠ none := by
  induction l with
  | nil => intro b h; exact Option.noConfusion h
  | cons kv rest ih =>
    intro b
    simp only [max_by_key_fold]
    by_cases hle : b.1 ≤ kv.1 <;> simp only [hle, if_true, if_false] <;> apply ih

theorem max_by_key_fold_none_iff (l : List (Nat × ℚ)) :
    max_by_key_fold none l = none ↔ l = [] := by
  cases l with
  | nil => simp [max_by_key_fold]
  | cons kv rest =>
    simp only [max_by_key_fold]
    exact iff_of_false (max_by_key_fold_some_ne_none rest kv) (by simp)

theorem max_by_key_fold_spec (l : List (Nat × ℚ)) :
    ∀ acc r, max_by_key_fold acc l = some r →
      (r ∈ l ∨ acc = some r) ∧ (∀ kv ∈ l, kv.1 ≤ r.1) ∧
      (∀ b, acc = some b → b.1 ≤ r.1) := by
  induction l with
  | nil =>
    intro acc r h
    simp only [max_by_key_fold] at h
    exact ⟨Or.inr h, by simp, fun b hb => by
      rw [h] at hb; rw [Option.some.inj hb]⟩
  | cons kv rest ih =>
    intro acc r h
    simp only [max_by_key_fold] at h
    cases acc with
    | none =>
      have h' := ih (some kv) r h
      refine ⟨?_, ?_, fun b hb => Option.noConfusion hb⟩
      · rcases h'.1 with hm | he
        · exact Or.inl (List.mem_cons_of_mem _ hm)
        · exact Or.inl (Option.some.inj he ▸ List.mem_cons_self kv rest)
      · intro kv' hkv'
        rcases List.mem_cons.mp hkv' with rfl | hm
        · exact h'.2.2 kv' rfl
        · exact h'.2.1 kv' hm
    | some best =>
      replace h : max_by_key_fold
          (if best.1 ≤ kv.1 then some kv else some best) rest = some r := h
      by_cases hle : best.1 ≤ kv.1
      · rw [if_pos hle] at h
        have h' := ih (some kv) r h
        refine ⟨?_, ?_, ?_⟩
        · rcases h'.1 with hm | he
          · exact Or.inl (List.mem_cons_of_mem _ hm)
          · exact Or.inl (Option.some.inj he ▸ List.mem_cons_self kv rest)
        · intro kv' hkv'
          rcases List.mem_cons.mp hkv' with rfl | hm
          · exact h'.2.2 kv' rfl
          · exact h'.2.1 kv' hm
        · intro b hb
          rw [Option.some.inj hb] at hle
          exact le_trans hle (h'.2.2 kv rfl)
      · rw [if_neg hle] at h
        have h' := ih (some best) r h
        refine ⟨?_, ?_, ?_⟩
        · rcases h'.1 with hm | he
          · exact Or.inl (List.mem_cons_of_mem _ hm)
          · exact Or.inr he
        · intro kv' hkv'
          rcases List.mem_cons.mp hkv' with rfl | hm
          · exact le_trans (le_of_not_le hle) (h'.2.2 best rfl)
          · exact h'.2.1 kv' hm
        · exact h'.2.2

/-- C2: `convert_fee_rate` returns the fee-rate of the largest
confirmation-target key that is at most the requested target, absent
when no key qualifies; in particular for {1: 5.0, 6: 2.0, 144: 1.0},
target 3 gives 5.0, target 200 gives 1.0 and target 0 gives none. -/
theorem convert_fee_rate_spec :
    (∀ (t : Nat) (est : List (Nat × ℚ)),
        est.Pairwise (fun a b => a.1 ≠ b.1) →
        ((∀ v, convert_fee_rate t est = some v ↔
            ∃ k, (k, v) ∈ est ∧ k ≤ t ∧
              ∀ kv ∈ est, kv.1 ≤ t → kv.1 ≤ k) ∧
          (convert_fee_rate t est = none ↔ ∀ kv ∈ est, ¬ kv.1 ≤ t)))
    ∧ convert_fee_rate 3 [(1, 5), (6, 2), (144, 1)] = some 5
    ∧ convert_fee_rate 200 [(1, 5), (6, 2), (144, 1)] = some 1
    ∧ convert_fee_rate 0 [(1, 5), (6, 2), (144, 1)] = none := by
  refine ⟨?_, by decide, by decide, by decide⟩
  intro t est hps
  have hforall := hps.forall (fun _ _ h => h.symm)
  constructor
  · intro v
    constructor
    · intro h
      unfold convert_fee_rate at h
      cases hf : max_by_key_fold none (est.filter fun kv => decide (kv.1 ≤ t)) with
      | none => rw [hf] at h; cases h
      | some r =>
        rw [hf] at h
        have hv : r.2 = v := by simpa using h
        have hs := max_by_key_fold_spec _ none r hf
        have hrmem : r ∈ est.filter fun kv => decide (kv.1 ≤ t) := by
          rcases hs.1 with hm | he
          · exact hm
          · exact absurd he (by simp)
        have hrin := List.mem_filter.mp hrmem
        have hrt : r.1 ≤ t := by simpa using hrin.2
        refine ⟨r.1, ?_, hrt, ?_⟩
        · have : (r.1, v) = r := by rw [← hv]
          rw [this]; exact hrin.1
        · intro kv hkv hle
          exact hs.2.1 kv (List.mem_filter.mpr ⟨hkv, by simpa using hle⟩)
    · rintro ⟨k, hkmem, hkt, hkmax⟩
      have hfmem : (k, v) ∈ est.filter fun kv => decide (kv.1 ≤ t) :=
        List.mem_filter.mpr ⟨hkmem, by simpa using hkt⟩
      unfold convert_fee_rate
      cases hf : max_by_key_fold none (est.filter fun kv => decide (kv.1 ≤ t)) with
      | none =>
        rw [(max_by_key_fold_none_iff _).mp hf] at hfmem
        cases hfmem
      | some r =>
        have hs := max_by_key_fold_spec _ none r hf
        have hrmem : r ∈ est.filter fun kv => decide (kv.1 ≤ t) := by
          rcases hs.1 with hm | he
          · exact hm
          · exact absurd he (by simp)
        have hrin := List.mem_filter.mp hrmem
        have hrt : r.1 ≤ t := by simpa using hrin.2
        have h1 : r.1 ≤ k := hkmax r hrin.1 hrt
        have h2 : k ≤ r.1 := hs.2.1 (k, v) hfmem
        have hkey : r.1 = k := le_antisymm h1 h2
        have hreq : r = (k, v) := by
          by_contra hne
          exact hforall hrin.1 hkmem hne hkey
        rw [hreq]
        rfl
  · unfold convert_fee_rate
    rw [Option.map_eq_none']
    rw [max_by_key_fold_none_iff]
    constructor
    · intro hnil kv hkv hle
      have : kv ∈ est.filter fun kv => decide (kv.1 ≤ t) :=
        List.mem_filter.mpr ⟨hkv, by simpa using hle⟩
      rw [hnil] at this
      cases this
    · intro hall
      rw [List.filter_eq_nil_iff]
      intro kv hkv
      simpa using hall kv hkv

theorem convert_fee_rate_spec_witness :
    ([((1 : Nat), (5 : ℚ)), (6, 2), (144, 1)].Pairwise
        (fun a b => a.1 ≠ b.1))
    ∧ (∀ v, convert_fee_rate 3 [(1, 5), (6, 2), (144, 1)] = some v ↔
        ∃ k, (k, v) ∈ [((1 : Nat), (5 : ℚ)), (6, 2), (144, 1)] ∧ k ≤ 3 ∧
          ∀ kv ∈ [((1 : Nat), (5 : ℚ)), (6, 2), (144, 1)], kv.1 ≤ 3 → kv.1 ≤ k) :=
  ⟨by decide,
    (convert_fee_rate_spec.1 3 [(1, 5), (6, 2), (144, 1)] (by decide)).1⟩

/-! ## Helper lemmas about the decoding pipeline -/

theorem response_404_not_success (resp : Response) (h : resp.status = 404) :
    resp.is_success = false := by
  unfold Response.is_success
  rw [h]
  decide

theorem retryable_not_success (resp : Response)
    (h : is_status_retryable resp.status = true) : resp.is_success = false := by
  have h3 : resp.status = 429 ∨ resp.status = 500 ∨ resp.status = 503 := by
    simpa [is_status_retryable, RETRYABLE_ERROR_CODES] using h
  unfold Response.is_success
  rcases h3 with h' | h' | h' <;> rw [h'] <;> decide

theorem get_response_http_error {T : Type} (c : AsyncClient)
    (dec : List Nat → Option T) (send : String → Nat → Except Nat Response)
    (path : String) (resp : Response)
    (hterm : (c.get_with_retry send (c.url ++ path)).result = .ok resp)
    (hns : resp.is_success = false) :
    c.get_response dec send path =
      .error (.HttpResponse resp.status resp.body) := by
  unfold AsyncClient.get_response
  dsimp only
  rw [hterm]
  dsimp only
  rw [hns]
  simp

theorem get_response_json_http_error {T : Type} (c : AsyncClient)
    (jdec : List Nat → Except Nat T) (send : String → Nat → Except Nat Response)
    (path : String) (resp : Response)
    (hterm : (c.get_with_retry send (c.url ++ path)).result = .ok resp)
    (hns : resp.is_success = false) :
    c.get_response_json jdec send path =
      .error (.HttpResponse resp.status resp.body) := by
  unfold AsyncClient.get_response_json
  dsimp only
  rw [hterm]
  dsimp only
  rw [hns]
  simp

theorem get_response_hex_http_error {T : Type} (c : AsyncClient)
    (dec : List Nat → Option T) (send : String → Nat → Except Nat Response)
    (path : String) (resp : Response)
    (hterm : (c.get_with_retry send (c.url ++ path)).result = .ok resp)
    (hns : resp.is_success = false) :
    c.get_response_hex dec send path =
      .error (.HttpResponse resp.status resp.body) := by
  unfold AsyncClient.get_response_hex
  dsimp only
  rw [hterm]
  dsimp only
  rw [hns]
  simp

theorem get_response_text_http_error (c : AsyncClient)
    (send : String → Nat → Except Nat Response) (path : String) (resp : Response)
    (hterm : (c.get_with_retry send (c.url ++ path)).result = .ok resp)
    (hns : resp.is_success = false) :
    c.get_response_text send path =
      .error (.HttpResponse resp.status resp.body) := by
  unfold AsyncClient.get_response_text
  dsimp only
  rw [hterm]
  dsimp only
  rw [hns]
  simp

theorem get_response_json_success {T : Type} (c : AsyncClient)
    (jdec : List Nat → Except Nat T) (send : String → Nat → Except Nat Response)
    (path : String) (resp : Response) (v : T)
    (hterm : (c.get_with_retry send (c.url ++ path)).result = .ok resp)
    (hsucc : resp.is_success = true) (hj : jdec resp.body = .ok v) :
    c.get_response_json jdec send path = .ok v := by
  unfold AsyncClient.get_response_json
  dsimp only
  rw [hterm]
  dsimp only
  rw [hsucc]
  simp [hj]

/-- C3: for the optional decode variants of all four decoding strategies
(binary, JSON, hex-then-binary — present in the source only as a
commented-out block — and plain text), a terminal 404 response yields an
empty result (`Ok(None)`), and a terminal non-2xx response with any
other status yields an `HttpResponse` error carrying that status and
body, never an empty result. -/
theorem opt_variants_404_spec {T1 T2 T3 : Type} (c : AsyncClient)
    (dec : List Nat → Option T1) (jdec : List Nat → Except Nat T2)
    (hdec : List Nat → Option T3)
    (send : String → Nat → Except Nat Response) (path : String)
    (resp : Response)
    (hterm : (c.get_with_retry send (c.url ++ path)).result = .ok resp) :
    (resp.status = 404 →
      c.get_opt_response dec send path = .ok none
      ∧ c.get_opt_response_json jdec send path = .ok none
      ∧ c.get_opt_response_hex hdec send path = .ok none
      ∧ c.get_opt_response_text send path = .ok none)
    ∧ (resp.is_success = false → resp.status ≠ 404 →
      c.get_opt_response dec send path =
        .error (.HttpResponse resp.status resp.body)
      ∧ c.get_opt_response_json jdec send path =
        .error (.HttpResponse resp.status resp.body)
      ∧ c.get_opt_response_hex hdec send path =
        .error (.HttpResponse resp.status resp.body)
      ∧ c.get_opt_response_text send path =
        .error (.HttpResponse resp.status resp.body)) := by
  constructor
  · intro h404
    have hns := response_404_not_success resp h404
    have h1 := get_response_http_error c dec send path resp hterm hns
    have h2 := get_response_json_http_error c jdec send path resp hterm hns
    have h3 := get_response_hex_http_error c hdec send path resp hterm hns
    have h4 := get_response_text_http_error c send path resp hterm hns
    rw [h404] at h1 h2 h3 h4
    refine ⟨?_, ?_, ?_, ?_⟩
    · unfold AsyncClient.get_opt_response
      rw [h1]
    · unfold AsyncClient.get_opt_response_json
      rw [h2]
    · unfold AsyncClient.get_opt_response_hex
      rw [h3]
    · unfold AsyncClient.get_opt_response_text
      rw [h4]
  · intro hns hne
    have h1 := get_response_http_error c dec send path resp hterm hns
    have h2 := get_response_json_http_error c jdec send path resp hterm hns
    have h3 := get_response_hex_http_error c hdec send path resp hterm hns
    have h4 := get_response_text_http_error c send path resp hterm hns
    refine ⟨?_, ?_, ?_, ?_⟩
    · unfold AsyncClient.get_opt_response
      rw [h1]
      split <;> simp_all
    · unfold AsyncClient.get_opt_response_json
      rw [h2]
      split <;> simp_all
    · unfold AsyncClient.get_opt_response_hex
      rw [h3]
      split <;> simp_all
    · unfold AsyncClient.get_opt_response_text
      rw [h4]
      split <;> simp_all

theorem opt_variants_404_spec_witness :
    ((AsyncClient.get_with_retry ⟨"u", 0⟩ (fun _ _ => .ok ⟨404, [1]⟩)
        ((⟨"u", 0⟩ : AsyncClient).url ++ "/p")).result = .ok ⟨404, [1]⟩)
    ∧ (Response.mk 404 [1]).status = 404
    ∧ (AsyncClient.get_opt_response ⟨"u", 0⟩ (fun _ => (none : Option Unit))
        (fun _ _ => .ok ⟨404, [1]⟩) "/p" = .ok none
      ∧ AsyncClient.get_opt_response_json ⟨"u", 0⟩
        (fun _ => (.error 0 : Except Nat Unit))
        (fun _ _ => .ok ⟨404, [1]⟩) "/p" = .ok none
      ∧ AsyncClient.get_opt_response_hex ⟨"u", 0⟩ (fun _ => (none : Option Unit))
        (fun _ _ => .ok ⟨404, [1]⟩) "/p" = .ok none
      ∧ AsyncClient.get_opt_response_text ⟨"u", 0⟩
        (fun _ _ => .ok ⟨404, [1]⟩) "/p" = .ok none) :=
  ⟨by decide, rfl,
    (opt_variants_404_spec ⟨"u", 0⟩ (fun _ => (none : Option Unit))
      (fun _ => (.error 0 : Except Nat Unit)) (fun _ => (none : Option Unit))
      (fun _ _ => .ok ⟨404, [1]⟩) "/p" ⟨404, [1]⟩ (by decide)).1 rfl⟩

/-- C5: in the hex-then-binary decode of a 2xx response, a body that is
valid hex but whose decoded bytes fail the binary (consensus) decode
yields `Error::BitcoinEncoding` (the binary-decode-failure error), not
the hex error; a body that is not valid hex yields the distinct
`Error::Hex` error; the two errors are distinct constructors. -/
theorem hex_decode_error_discrimination {T : Type} (c : AsyncClient)
    (dec : List Nat → Option T) (send : String → Nat → Except Nat Response)
    (path : String) (resp : Response)
    (hterm : (c.get_with_retry send (c.url ++ path)).result = .ok resp)
    (hsucc : resp.is_success = true) :
    (∀ bs, from_hex resp.body = .ok bs → dec bs = none →
      c.get_response_hex dec send path = .error .BitcoinEncoding)
    ∧ (∀ he, from_hex resp.body = .error he →
      c.get_response_hex dec send path = .error (.Hex he))
    ∧ (∀ he, (Error.BitcoinEncoding : Error) ≠ .Hex he) := by
  refine ⟨?_, ?_, fun he h => Error.noConfusion h⟩
  · intro bs h1 h2
    unfold AsyncClient.get_response_hex
    dsimp only
    rw [hterm]
    dsimp only
    rw [hsucc]
    simp [h1, h2]
  · intro he h1
    unfold AsyncClient.get_response_hex
    dsimp only
    rw [hterm]
    dsimp only
    rw [hsucc]
    simp [h1]

theorem hex_decode_error_discrimination_witness :
    ((AsyncClient.get_with_retry ⟨"u", 0⟩ (fun _ _ => .ok ⟨200, [48, 48]⟩)
        ((⟨"u", 0⟩ : AsyncClient).url ++ "/p")).result = .ok ⟨200, [48, 48]⟩)
    ∧ (Response.mk 200 [48, 48]).is_success = true
    ∧ from_hex [48, 48] = .ok [0]
    ∧ ((fun _ => (none : Option Unit)) [0] = none)
    ∧ AsyncClient.get_response_hex ⟨"u", 0⟩ (fun _ => (none : Option Unit))
        (fun _ _ => .ok ⟨200, [48, 48]⟩) "/p" = .error .BitcoinEncoding :=
  ⟨by decide, by decide, by decide, rfl,
    (hex_decode_error_discrimination ⟨"u", 0⟩ (fun _ => (none : Option Unit))
      (fun _ _ => .ok ⟨200, [48, 48]⟩) "/p" ⟨200, [48, 48]⟩ (by decide)
      (by decide)).1 [0] (by decide) rfl⟩

/-- C8: for the blocks endpoint, a 2xx response whose JSON body decodes
to an empty array yields `Error::InvalidServerData` rather than an empty
list, while a non-empty array is returned as-is. -/
theorem blocks_empty_invalid_server_data {B : Type} (c : AsyncClient)
    (jdec : List Nat → Except Nat (List B))
    (send : String → Nat → Except Nat Response) (height : Option Nat)
    (resp : Response) (l : List B)
    (hterm : (c.get_with_retry send (c.url ++ (match height with
      | some h => "/blocks/" ++ toString h
      | none => "/blocks"))).result = .ok resp)
    (hsucc : resp.is_success = true) (hj : jdec resp.body = .ok l) :
    (l = [] → c.blocks jdec send height = .error .InvalidServerData)
    ∧ (l ≠ [] → c.blocks jdec send height = .ok l) := by
  have hr := get_response_json_success c jdec send _ resp l hterm hsucc hj
  constructor <;> intro hl <;> unfold AsyncClient.blocks <;> dsimp only <;>
    rw [hr]
  · rw [hl]
    simp
  · simp [hl]

theorem blocks_empty_invalid_server_data_witness :
    ((AsyncClient.get_with_retry ⟨"u", 0⟩ (fun _ _ => .ok ⟨200, []⟩)
        ((⟨"u", 0⟩ : AsyncClient).url ++ "/blocks")).result = .ok ⟨200, []⟩)
    ∧ (Response.mk 200 []).is_success = true
    ∧ ((fun _ => (.ok [] : Except Nat (List Nat))) ([] : List Nat) = .ok [])
    ∧ AsyncClient.blocks ⟨"u", 0⟩ (fun _ => (.ok [] : Except Nat (List Nat)))
        (fun _ _ => .ok ⟨200, []⟩) none = .error .InvalidServerData :=
  ⟨by decide, by decide, rfl,
    (blocks_empty_invalid_server_data ⟨"u", 0⟩
      (fun _ => (.ok [] : Except Nat (List Nat))) (fun _ _ => .ok ⟨200, []⟩)
      none ⟨200, []⟩ [] (by decide) (by decide) rfl).1 rfl⟩

/-- C9: `tx_no_opt` converts an empty optional result (absent
transaction) into `Error::TransactionNotFound` carrying the queried
transaction identifier, returns the transaction when present, and
propagates any other error unchanged. -/
theorem tx_no_opt_spec {T : Type} (c : AsyncClient) (dec : List Nat → Option T)
    (send : String → Nat → Except Nat Response) (txid : Nat) :
    (∀ tr, c.tx dec send txid = .ok (some tr) →
      c.tx_no_opt dec send txid = .ok tr)
    ∧ (c.tx dec send txid = .ok none →
      c.tx_no_opt dec send txid = .error (.TransactionNotFound txid))
    ∧ (∀ e, c.tx dec send txid = .error e →
      c.tx_no_opt dec send txid = .error e) := by
  refine ⟨?_, ?_, ?_⟩
  · intro tr h
    unfold AsyncClient.tx_no_opt
    rw [h]
  · intro h
    unfold AsyncClient.tx_no_opt
    rw [h]
  · intro e h
    unfold AsyncClient.tx_no_opt
    rw [h]

theorem tx_no_opt_spec_witness :
    (AsyncClient.tx ⟨"u", 0⟩ (fun _ => (none : Option Unit))
        (fun _ _ => .ok ⟨404, []⟩) 7 = .ok none)
    ∧ AsyncClient.tx_no_opt ⟨"u", 0⟩ (fun _ => (none : Option Unit))
        (fun _ _ => .ok ⟨404, []⟩) 7 = .error (.TransactionNotFound 7) :=
  ⟨by decide,
    (tx_no_opt_spec ⟨"u", 0⟩ (fun _ => (none : Option Unit))
      (fun _ _ => .ok ⟨404, []⟩) 7).2.1 (by decide)⟩

/-- C4 counterexample: with the default max_retries = 6 and a transport
that always answers 503 (retryable), the GET dispatcher performs 7 send
attempts, but the POST transaction broadcast performs exactly 1 send and
surfaces the 503 immediately as an `HttpResponse` error — so broadcast
is not retried "exactly as a GET request is". -/
theorem broadcast_not_retried_counterexample :
    (AsyncClient.broadcast ⟨"u", 6⟩ (fun b => b)
      (fun _ _ => .ok ⟨503, []⟩) [0]).attempts_made = 1
    ∧ (AsyncClient.get_with_retry ⟨"u", 6⟩
      (fun _ _ => .ok ⟨503, []⟩) "u/tx").attempts_made = 7
    ∧ (AsyncClient.broadcast ⟨"u", 6⟩ (fun b => b)
      (fun _ _ => .ok ⟨503, []⟩) [0]).result = .error (.HttpResponse 503 [])
    ∧ (1 : Nat) ≠ 7 := by
  decide

/-- C4 (amended): the GET decoding strategies delegate their dispatch to
the retry dispatcher (their outcome is a function of the dispatcher's
result), but the POST transaction broadcast does not: it performs
exactly one send for every transport, and a retryable status
(429/500/503) received by a broadcast is not retried — it surfaces
immediately as an `HttpResponse` error carrying that status. -/
theorem broadcast_single_attempt_spec {T : Type} (c : AsyncClient)
    (ser : T → List Nat) (send : String → List Nat → Except Nat Response)
    (tx : T) :
    (c.broadcast ser send tx).attempts_made = 1
    ∧ (∀ resp, send (c.url ++ "/tx") (to_hex (ser tx)) = .ok resp →
        is_status_retryable resp.status = true →
        (c.broadcast ser send tx).result =
          .error (.HttpResponse resp.status resp.body))
    ∧ (∀ (dec : List Nat → Option T)
        (send₁ send₂ : String → Nat → Except Nat Response) (path : String),
        c.get_with_retry send₁ (c.url ++ path) =
          c.get_with_retry send₂ (c.url ++ path) →
        c.get_response dec send₁ path = c.get_response dec send₂ path) := by
  refine ⟨?_, ?_, ?_⟩
  · unfold AsyncClient.broadcast AsyncClient.post_request_hex
    dsimp only
    cases h : send (c.url ++ "/tx") (to_hex (ser tx)) with
    | error e => rfl
    | ok resp =>
      dsimp only
      by_cases hs : resp.is_success = true
      · rw [if_pos hs]
      · rw [if_neg hs]
  · intro resp h1 h2
    have hns := retryable_not_success resp h2
    unfold AsyncClient.broadcast AsyncClient.post_request_hex
    dsimp only
    rw [h1]
    dsimp only
    rw [hns]
    simp
  · intro dec send₁ send₂ path h
    unfold AsyncClient.get_response
    dsimp only
    rw [h]

theorem broadcast_single_attempt_spec_witness :
    ((fun (_ : String) (_ : List Nat) =>
        (Except.ok ⟨429, []⟩ : Except Nat Response))
      ((⟨"u", 6⟩ : AsyncClient).url ++ "/tx") (to_hex [1]) = .ok ⟨429, []⟩)
    ∧ is_status_retryable 429 = true
    ∧ (AsyncClient.broadcast ⟨"u", 6⟩ (fun b => b)
        (fun _ _ => .ok ⟨429, []⟩) [1]).result =
          .error (.HttpResponse 429 []) :=
  ⟨rfl, by decide,
    (broadcast_single_attempt_spec ⟨"u", 6⟩ (fun b => b)
      (fun _ _ => .ok ⟨429, []⟩) [1]).2.1 ⟨429, []⟩ rfl (by decide)⟩

/-- C10: `from_builder` lowercases every configured header name before
validating it, so a name that is a valid header token only after
lowercasing (e.g. "Content-Type") is accepted; a name invalid even
after lowercasing yields `InvalidHttpHeaderName` carrying the original
name, and an invalid header value yields `InvalidHttpHeaderValue`
carrying the value. -/
theorem from_builder_header_spec :
    (∀ (base : String) (proxy : Option String) (timeout : Option Nat)
        (mr : Nat) (k v : String),
      (is_valid_lowercase_header_name (to_lowercase k) = true →
        is_valid_header_value v = true →
        AsyncClient.from_builder ⟨base, proxy, timeout, [(k, v)], mr⟩ =
          .ok ⟨base, mr⟩)
      ∧ (is_valid_lowercase_header_name (to_lowercase k) = false →
        AsyncClient.from_builder ⟨base, proxy, timeout, [(k, v)], mr⟩ =
          .error (.InvalidHttpHeaderName k))
      ∧ (is_valid_lowercase_header_name (to_lowercase k) = true →
        is_valid_header_value v = false →
        AsyncClient.from_builder ⟨base, proxy, timeout, [(k, v)], mr⟩ =
          .error (.InvalidHttpHeaderValue v)))
    ∧ is_valid_lowercase_header_name "Content-Type" = false
    ∧ is_valid_lowercase_header_name (to_lowercase "Content-Type") = true := by
  refine ⟨?_, by decide, by decide⟩
  intro base proxy timeout mr k v
  refine ⟨?_, ?_, ?_⟩
  · intro h1 h2
    unfold AsyncClient.from_builder
    simp [validate_headers, h1, h2]
  · intro h1
    unfold AsyncClient.from_builder
    simp [validate_headers, h1]
  · intro h1 h2
    unfold AsyncClient.from_builder
    simp [validate_headers, h1, h2]

theorem from_builder_header_spec_witness :
    is_valid_lowercase_header_name (to_lowercase "Content-Type") = true
    ∧ is_valid_header_value "x" = true
    ∧ AsyncClient.from_builder
        ⟨"u", none, none, [("Content-Type", "x")], 6⟩ = .ok ⟨"u", 6⟩ :=
  ⟨by decide, by decide,
    (from_builder_header_spec.1 "u" none none 6 "Content-Type" "x").1
      (by decide) (by decide)⟩
